import Mathlib

/-!
Shallow embedding of the `log_analyer` repository (Dr-KoKo/log_analyer):
the record parser and filter layer of `src/log_analyzer/sources/file_source.py`
and the aggregation / pattern-detection engine of
`src/log_analyzer/analyzers/error_analyzer.py`.

Conventions of the embedding:
- Python `datetime` values are represented as `Int` microseconds on a
  proleptic-Gregorian absolute axis (year 1 = origin); only equality,
  ordering and differences of timestamps are ever used by the code.
- Python exceptions are represented by `Option` / `Except`: a helper that
  can raise returns `none` / `.error`, and a `try/except` around it becomes
  a `match`.
- `pandas` dataframes are lists of row structures; `groupby(...).size()`
  is "sorted distinct keys, each with its occurrence count", with rows
  whose key contains a null (`none`) dropped, as pandas does by default.
-/

namespace LogAn

/-! ### Character and string helpers (Python `str.split`, `int`, `str.strip`) -/

/-- The character class `[A-Za-z0-9]` of the analyzer's regexes. -/
def isAlnumAZ09 (c : Char) : Bool :=
  (('A' ≤ c ∧ c ≤ 'Z') ∨ ('a' ≤ c ∧ c ≤ 'z') ∨ ('0' ≤ c ∧ c ≤ '9') : Bool)

/-- Split a character list at every character satisfying `p`, keeping empty
segments (the behaviour of Python `str.split(sep)` for a one-character
separator when `p` tests for that separator). -/
def splitPAux (p : Char → Bool) : List Char → List Char → List (List Char)
  | [], acc => [acc.reverse]
  | x :: xs, acc =>
      if p x then acc.reverse :: splitPAux p xs [] else splitPAux p xs (x :: acc)

/-- Python `s.split(c)` for a single-character separator. -/
def splitOnCh (c : Char) (l : List Char) : List (List Char) :=
  splitPAux (fun x => x = c) l []

/-- Python `s.split()` (no argument): split on whitespace runs, dropping
empty segments. -/
def splitWs (l : List Char) : List (List Char) :=
  (splitPAux (fun x => x.isWhitespace) l []).filter (fun s => ¬ s.isEmpty)

/-- Evaluate a non-empty all-digit character list as a number; `none`
otherwise (the accepting fragment of Python `int` / `strptime` numeric
fields). -/
def digitsVal (l : List Char) : Option Nat :=
  if ¬ l.isEmpty ∧ l.all (fun c => c.isDigit) then
    some (l.foldl (fun a c => a * 10 + (c.toNat - 48)) 0)
  else none

/-- Python `str.strip()` on a character list. -/
def stripChars (l : List Char) : List Char :=
  ((l.dropWhile (fun c => c.isWhitespace)).reverse.dropWhile
    (fun c => c.isWhitespace)).reverse

/-- Python `str.strip()`. -/
def strip (s : String) : String := ⟨stripChars s.data⟩

/-! ### Timestamp parsing (`FileLogSource._parse_timestamp`) -/

/-- The `month_map` dictionary of `FileLogSource`. -/
def month_map : List (List Char × List Char) :=
  [("Jan".data, "01".data), ("Feb".data, "02".data), ("Mar".data, "03".data),
   ("Apr".data, "04".data), ("May".data, "05".data), ("Jun".data, "06".data),
   ("Jul".data, "07".data), ("Aug".data, "08".data), ("Sep".data, "09".data),
   ("Oct".data, "10".data), ("Nov".data, "11".data), ("Dec".data, "12".data)]

/-- Gregorian leap-year test (Python `datetime` calendar). -/
def isLeap (y : Nat) : Bool := (y % 4 = 0 ∧ y % 100 ≠ 0) ∨ y % 400 = 0

/-- Month lengths for year `y`. -/
def monthLengths (y : Nat) : List Nat :=
  [31, if isLeap y then 29 else 28, 31, 30, 31, 30, 31, 31, 30, 31, 30, 31]

/-- Days in month `m` (1-based) of year `y`. -/
def daysInMonth (y m : Nat) : Nat := (monthLengths y).getD (m - 1) 0

/-- Number of days strictly before 1 January of year `y` (proleptic
Gregorian, counted from year 1). -/
def daysBeforeYear (y : Nat) : Nat :=
  365 * (y - 1) + (y - 1) / 4 - (y - 1) / 100 + (y - 1) / 400

/-- Number of days of year `y` strictly before month `m` (1-based). -/
def daysBeforeMonth (y m : Nat) : Nat := ((monthLengths y).take (m - 1)).sum

/-- Build the absolute timestamp (microseconds) for a broken-down time,
validating fields exactly as Python's `datetime.strptime` /
`datetime.__init__` do: `MINYEAR <= year`, month 1..12, day within the
month, hour 0..23, minute and second 0..59. Returns `none` (a raised
`ValueError`) when a field is out of range. -/
def mkTimestampUsec (y mo d h mi s usec : Nat) : Option Int :=
  if 1 ≤ y ∧ 1 ≤ mo ∧ mo ≤ 12 ∧ 1 ≤ d ∧ d ≤ daysInMonth y mo ∧
     h ≤ 23 ∧ mi ≤ 59 ∧ s ≤ 59 then
    some (((((daysBeforeYear y + daysBeforeMonth y mo + (d - 1)) * 24 + h) * 60
      + mi) * 60 + s) * 1000000 + usec : Nat)
  else none

/-- `FileLogSource._parse_timestamp` on a character list, composed with the
`datetime.strptime(datetime_str, "%Y-%m-%d %H:%M:%S.%f")` call it ends
with.  The input is split on whitespace into a date part and a time part;
the date splits on `-` into day, month token and year; the month token is
looked up in `month_map` with default `"01"` (an unknown token is silently
mapped to January — there is no failure path for it); the time splits on
`.` into `HH:MM:SS` and an optional fraction defaulting to `"000"`.
Any missing piece (an `IndexError`) or any piece `strptime` would reject
(non-digits, wrong widths, out-of-range values) yields `none`, which models
the exception the Python code raises. `%f` right-pads the fraction to six
digits (microseconds). -/
def parse_timestamp_chars (l : List Char) : Option Int :=
  match (splitWs l).get? 0, (splitWs l).get? 1 with
  | some p0, some p1 =>
      let dp := splitOnCh '-' p0
      match dp.get? 0, dp.get? 1, dp.get? 2 with
      | some day_s, some mon_s, some year_s =>
          let tp := splitOnCh '.' p1
          let time_s := tp.headD []
          let ms_s := (tp.get? 1).getD "000".data
          let mon2 := (month_map.lookup mon_s).getD "01".data
          (match splitOnCh ':' time_s with
           | [h_s, mi_s, s_s] =>
               if year_s.length ≤ 4 ∧ day_s.length ≤ 2 ∧ h_s.length ≤ 2 ∧
                  mi_s.length ≤ 2 ∧ s_s.length ≤ 2 ∧ ms_s.length ≤ 6 then
                 match digitsVal year_s, digitsVal mon2, digitsVal day_s,
                       digitsVal h_s, digitsVal mi_s, digitsVal s_s,
                       digitsVal ms_s with
                 | some y, some mo, some d, some h, some mi, some s, some f =>
                     mkTimestampUsec y mo d h mi s (f * 10 ^ (6 - ms_s.length))
                 | _, _, _, _, _, _, _ => none
               else none
           | _ => none)
      | _, _, _ => none
  | _, _ => none

/-- `FileLogSource._parse_timestamp` (string interface). -/
def parse_timestamp (s : String) : Option Int := parse_timestamp_chars s.data

/-! ### Log records (`interfaces.LogEntry`) -/

/-- `interfaces.LogEntry`: one parsed record.  Timestamps are absolute
microseconds. -/
structure LogEntry where
  timestamp : Int
  level : String
  thread : String
  logger : String
  message : String
  exception_type : Option String := none
  exception_message : Option String := none
  location : Option String := none
  file_line : Option String := none
  raw_content : Option String := none
deriving DecidableEq

/-! ### Record extraction (`FileLogSource._extract_entries_from_content`)

The two error regexes and the general regex of `log_patterns['tomcat']`
are a text-matching front end; the embedding starts from their output: a
list of error-grammar matches and a list of general-grammar matches, each
carrying the captured groups in match order.  Everything the function does
*after* `finditer` — timestamp parsing with its `try/except`, entry
construction, and the duplicate check — is embedded faithfully. -/

/-- The captured groups of one error-grammar match (both variants capture
the same set; `exc_message` is an optional group in variant A). -/
structure ErrorMatch where
  timestamp : String
  thread : String
  logger : String
  message : String
  exception : String
  exc_message : Option String := none
  location : String
  file : String
  raw : String := ""
deriving DecidableEq

/-- The captured groups of one general-grammar match. -/
structure GeneralMatch where
  timestamp : String
  level : String
  thread : String
  logger : String
  message : String
  raw : String := ""
deriving DecidableEq

/-- The entry appended for an error-grammar match whose timestamp parsed
to `t` (the `entries.append(LogEntry(...))` of the first loop; the general
regex's level alphabet makes every error entry level `"심각"`). -/
def errorEntryOf (m : ErrorMatch) (t : Int) : LogEntry :=
  { timestamp := t
    level := "심각"
    thread := m.thread
    logger := m.logger
    message := strip m.message
    exception_type := some (strip m.exception)
    exception_message := some (match m.exc_message with
      | some s => strip s
      | none => "")
    location := some (strip m.location)
    file_line := some (strip m.file)
    raw_content := some m.raw }

/-- One iteration of the error-match loop: parse the timestamp; on success
append the entry, on a raised exception keep the accumulator unchanged
(the `except` branch only prints). -/
def errorStep (acc : List LogEntry) (m : ErrorMatch) : List LogEntry :=
  match parse_timestamp m.timestamp with
  | none => acc
  | some t => acc ++ [errorEntryOf m t]

/-- The error-grammar pass: both error patterns' matches, in order. -/
def errorPass (acc : List LogEntry) (ems : List ErrorMatch) : List LogEntry :=
  ems.foldl errorStep acc

/-- The entry appended for a general-grammar match whose timestamp parsed
to `t`. -/
def generalEntryOf (m : GeneralMatch) (t : Int) : LogEntry :=
  { timestamp := t
    level := m.level
    thread := m.thread
    logger := m.logger
    message := strip m.message
    exception_type := none
    exception_message := none
    location := none
    file_line := none
    raw_content := some m.raw }

/-- The `is_error` duplicate test of the general loop: the match is at
level `"심각"` and some already-collected entry has the same timestamp and
the same level. -/
def isDupGeneral (acc : List LogEntry) (lvl : String) (t : Int) : Bool :=
  lvl = "심각" ∧ acc.any (fun e => e.timestamp = t ∧ e.level = lvl)

/-- One iteration of the general-match loop. -/
def generalStep (acc : List LogEntry) (m : GeneralMatch) : List LogEntry :=
  match parse_timestamp m.timestamp with
  | none => acc
  | some t =>
      if isDupGeneral acc m.level t then acc else acc ++ [generalEntryOf m t]

/-- The general-grammar pass over the accumulated entries. -/
def generalPass (acc : List LogEntry) (gms : List GeneralMatch) : List LogEntry :=
  gms.foldl generalStep acc

/-- `FileLogSource._extract_entries_from_content`: the error grammars'
matches (variant A then variant B) are processed first, then the general
grammar's matches, sharing one `entries` accumulator. -/
def extract_entries_from_content (emsA emsB : List ErrorMatch)
    (gms : List GeneralMatch) : List LogEntry :=
  generalPass (errorPass (errorPass [] emsA) emsB) gms

/-! ### Byte decoding and `FileLogSource.fetch_logs`

The byte→text codec is Python-library behaviour, not repository code, so
it is kept abstract: a `Codec` maps a byte suffix to the next code point
and the number of bytes it consumed, or `none` on an invalid sequence.
`decodeStrict` models `bytes.decode(enc)` (and `open(..., encoding=enc)`
followed by `read()`): the first invalid sequence raises.  `decodeIgnore`
models `bytes.decode(enc, errors="ignore")`: an invalid sequence is
skipped one byte at a time and decoding continues. -/

/-- An abstract text codec: from a non-empty byte suffix produce the next
code point and the count of consumed bytes, or fail. -/
structure Codec where
  step : List Nat → Option (Nat × Nat)

/-- Strict decoding: fails (raises `UnicodeDecodeError`) at the first
invalid sequence.  `fuel` bounds recursion; callers pass the byte count
and each step consumes at least one byte. -/
def decodeStrictAux (c : Codec) : Nat → List Nat → Option (List Nat)
  | _, [] => some []
  | 0, _ => none
  | fuel + 1, bs =>
      match c.step bs with
      | none => none
      | some (cp, k) =>
          match decodeStrictAux c fuel (bs.drop (max 1 k)) with
          | none => none
          | some rest => some (cp :: rest)

/-- Python `bytes(...).decode(enc)` / reading a text file opened with the
default (strict) error handler. -/
def decodeStrict (c : Codec) (bs : List Nat) : Option (List Nat) :=
  decodeStrictAux c bs.length bs

/-- Error-ignoring decoding: an invalid byte is dropped and decoding
continues (Python `errors="ignore"`). -/
def decodeIgnoreAux (c : Codec) : Nat → List Nat → List Nat
  | _, [] => []
  | 0, _ => []
  | fuel + 1, bs =>
      match c.step bs with
      | none => decodeIgnoreAux c fuel (bs.drop 1)
      | some (cp, k) => cp :: decodeIgnoreAux c fuel (bs.drop (max 1 k))

/-- Python `bytes(...).decode(enc, errors="ignore")`. -/
def decodeIgnore (c : Codec) (bs : List Nat) : List Nat :=
  decodeIgnoreAux c bs.length bs

/-- A UTF-8 codec model covering the one- and two-byte forms (sufficient
for the byte strings considered here): bytes below `0x80` stand for
themselves; a lead byte in `0xC2..0xDF` followed by a continuation byte in
`0x80..0xBF` forms a two-byte sequence; anything else is invalid, as in
Python's `utf-8` codec. -/
def utf8Model : Codec where
  step bs :=
    match bs with
    | [] => none
    | b :: rest =>
        if b < 128 then some (b, 1)
        else if 194 ≤ b ∧ b ≤ 223 then
          match rest with
          | b2 :: _ =>
              if 128 ≤ b2 ∧ b2 ≤ 191 then
                some ((b - 192) * 64 + (b2 - 128), 2)
              else none
          | [] => none
        else none

/-- Whether a member name ends in `".log"` (`name.endswith(".log")`), on
code points: `[46, 108, 111, 103]` is `".log"`. -/
def endsWithLog (name : List Nat) : Bool :=
  [46, 108, 111, 103].isSuffixOf name

/-- The connected path: either a zip archive (a list of named members,
each a byte string) or a plain file (one byte string).  `fetch_logs`
branches on `self.file_path.endswith(".zip")`; here the branch is the
constructor. -/
inductive Source where
  | zipFile (members : List (List Nat × List Nat))
  | plainFile (bytes : List Nat)

/-- The `filters` dictionary accepted by `fetch_logs`: optional exact
`level`, optional exact `exception_type`, optional compiled
`thread_pattern` (the compiled regex's `search` is abstracted as a
Boolean predicate on the thread name). -/
structure Filters where
  level : Option String := none
  exception_type : Option String := none
  thread_pattern : Option (String → Bool) := none

/-- The filter section of `fetch_logs`, applied to the concatenated
entries in source order: time lower bound, time upper bound, `level`
equality, `exception_type` equality, thread-pattern search — each by a
list comprehension, each skipped when its argument is absent. -/
def applyFetchFilters (entries : List LogEntry) (start_time end_time : Option Int)
    (filters : Filters) : List LogEntry :=
  let l1 := match start_time with
    | none => entries
    | some st => entries.filter (fun e => st ≤ e.timestamp)
  let l2 := match end_time with
    | none => l1
    | some et => l1.filter (fun e => e.timestamp ≤ et)
  let l3 := match filters.level with
    | none => l2
    | some lv => l2.filter (fun e => e.level = lv)
  let l4 := match filters.exception_type with
    | none => l3
    | some xt => l3.filter (fun e => e.exception_type = some xt)
  match filters.thread_pattern with
  | none => l4
  | some p => l4.filter (fun e => p e.thread)

/-- The conjunction of every supplied filter predicate. -/
def fetchPred (start_time end_time : Option Int) (filters : Filters)
    (e : LogEntry) : Bool :=
  (match start_time with
   | none => true
   | some st => decide (st ≤ e.timestamp)) &&
  (match end_time with
   | none => true
   | some et => decide (e.timestamp ≤ et)) &&
  (match filters.level with
   | none => true
   | some lv => decide (e.level = lv)) &&
  (match filters.exception_type with
   | none => true
   | some xt => decide (e.exception_type = some xt)) &&
  (match filters.thread_pattern with
   | none => true
   | some p => p e.thread)

/-- `FileLogSource.fetch_logs`.  The regex front end is abstracted as
`extract`, mapping decoded text (code points) to the entries
`_extract_entries_from_content` would produce for it.  Zip members whose
name ends in `".log"` are decoded with `errors="ignore"` (total); a plain
file is read with the strict decoder, whose failure propagates as
`UnicodeDecodeError`.  The concatenated entries then pass the filter
section. -/
def fetch_logs (extract : List Nat → List LogEntry) (codec : Codec)
    (src : Source) (start_time end_time : Option Int) (filters : Filters) :
    Except String (List LogEntry) :=
  match src with
  | .zipFile members =>
      let all_entries :=
        (members.filter (fun m => endsWithLog m.1)).foldl
          (fun acc m => acc ++ extract (decodeIgnore codec m.2)) []
      .ok (applyFetchFilters all_entries start_time end_time filters)
  | .plainFile bytes =>
      match decodeStrict codec bytes with
      | none => .error "UnicodeDecodeError"
      | some content =>
          .ok (applyFetchFilters (extract content) start_time end_time filters)

/-! ### Derived columns of the error dataframe (`ErrorAnalyzer.analyze`) -/

/-- The literal `"Exception"` the core-exception regex ends with. -/
def excWord : List Char := "Exception".data

/-- Greedy backtracking step of `re.search(r"([A-Za-z0-9]+Exception)")` at
one start position: the largest `n ∈ [1, bound]` such that `"Exception"`
follows the first `n` characters. -/
def ceFindLen (l : List Char) : Nat → Option Nat
  | 0 => none
  | n + 1 =>
      if excWord.isPrefixOf (l.drop (n + 1)) then some (n + 1)
      else ceFindLen l n

/-- The match of `[A-Za-z0-9]+Exception` anchored at the head of `l`, if
any: the `+` consumes as many `[A-Za-z0-9]` characters as possible while
still leaving a literal `"Exception"`. -/
def ceMatchHere (l : List Char) : Option (List Char) :=
  match ceFindLen l (l.takeWhile isAlnumAZ09).length with
  | some n => some (l.take (n + excWord.length))
  | none => none

/-- Leftmost-match scan of `re.search`: try each start position left to
right. -/
def ceScan : List Char → Option (List Char)
  | [] => none
  | c :: rest =>
      match ceMatchHere (c :: rest) with
      | some m => some m
      | none => ceScan rest

/-- `error_df['exception_type'].str.extract(r'([A-Za-z0-9]+Exception)')`
on one cell: the first (leftmost, greedy) substring matching
`[A-Za-z0-9]+Exception`, or null. -/
def coreExceptionOf (s : String) : Option String :=
  (ceScan s.data).map (fun l => (⟨l⟩ : String))

/-- Scan for `re.search(r'([^:]+):(\d+)')`: find the first `:` that is
preceded by at least one non-`:` character and followed by at least one
digit; the first capture is the maximal non-`:` run before it, the second
the maximal digit run after it. -/
def eflAux : List Char → List Char → Option (String × String)
  | [], _ => none
  | c :: rest, acc =>
      if c = ':' then
        (let ds := rest.takeWhile (fun d => d.isDigit)
         if ¬ acc.isEmpty ∧ ¬ ds.isEmpty then
           some ((⟨acc.reverse⟩ : String), (⟨ds⟩ : String))
         else eflAux rest [])
      else eflAux rest (c :: acc)

/-- `error_df['file_line'].str.extract(r'([^:]+):(\d+)')` on one cell. -/
def extractFileLine (s : String) : Option (String × String) := eflAux s.data []

/-- Microseconds per hour. -/
def usecPerHour : Int := 3600000000

/-- Microseconds per day. -/
def usecPerDay : Int := 86400000000

/-- One row of `error_df` after `ErrorAnalyzer.analyze` has added the
derived columns (`to_dict` omits `raw_content`, so the dataframe never
holds it).  `hour` is the hour-floor timestamp (`dt.floor('H')`), `date`
the day index of the calendar date (`dt.date`). -/
structure ERow where
  timestamp : Int
  level : String
  thread : String
  logger : String
  message : String
  exception_type : Option String
  exception_message : Option String
  location : Option String
  file_line : Option String
  core_exception : Option String
  filename : Option String
  line : Option String
  hour : Int
  date : Int
deriving DecidableEq

/-- Build an `error_df` row from a `LogEntry`, deriving
`core_exception`, `filename`/`line`, `hour` and `date` as `analyze`
does. -/
def mkERow (e : LogEntry) : ERow :=
  let fl := e.file_line.bind extractFileLine
  { timestamp := e.timestamp
    level := e.level
    thread := e.thread
    logger := e.logger
    message := e.message
    exception_type := e.exception_type
    exception_message := e.exception_message
    location := e.location
    file_line := e.file_line
    core_exception := e.exception_type.bind coreExceptionOf
    filename := fl.map Prod.fst
    line := fl.map Prod.snd
    hour := e.timestamp - e.timestamp % usecPerHour
    date := (e.timestamp - e.timestamp % usecPerDay) / usecPerDay }

/-- The error subset: rows whose `exception_type` is non-null
(`df[df['exception_type'].notna()]`), with derived columns. -/
def errorSubset (logs : List LogEntry) : List ERow :=
  (logs.filter (fun e => e.exception_type.isSome)).map mkERow

/-! ### Groupby machinery (`groupby(...).size()`) -/

/-- Total comparator on strings for key sorting. -/
def strLe (a b : String) : Bool := !(decide (b < a))

/-- Lexicographic comparator on string triples. -/
def keyLe3 (a b : String × String × String) : Bool :=
  if a.1 ≠ b.1 then decide (a.1 < b.1)
  else if a.2.1 ≠ b.2.1 then decide (a.2.1 < b.2.1)
  else strLe a.2.2 b.2.2

/-- Lexicographic comparator on (integer, string) pairs. -/
def keyLeIS (a b : Int × String) : Bool :=
  if a.1 ≠ b.1 then decide (a.1 < b.1) else strLe a.2 b.2

/-- Lexicographic comparator on string pairs. -/
def keyLeSS (a b : String × String) : Bool :=
  if a.1 ≠ b.1 then decide (a.1 < b.1) else strLe a.2 b.2

/-- Comparator on integers. -/
def intLe (a b : Int) : Bool := decide (a ≤ b)

/-- Insertion step of a stable insertion sort: `a` is placed after every
element `b` with `le b a`. -/
def insertOrd {α : Type} (le : α → α → Bool) (a : α) : List α → List α
  | [] => [a]
  | b :: bs => if le b a then b :: insertOrd le a bs else a :: b :: bs

/-- Stable ascending sort by `le` (the sorted orders pandas produces:
`sort_values` and sorted groupby keys). -/
def sortOrd {α : Type} (le : α → α → Bool) (l : List α) : List α :=
  l.foldl (fun acc x => insertOrd le x acc) []

/-- Occurrence count of a key in a key list (`Series.size()` of one
group). -/
def keyCount {K : Type} [DecidableEq K] (k : K) (keys : List K) : Nat :=
  keys.count k

/-- `groupby(keys).size()`: the distinct keys in sorted order, each with
its number of occurrences.  Rows whose key is null have already been
dropped by the caller (`filterMap`), matching pandas' default
`dropna=True`. -/
def groupSizes {K : Type} [DecidableEq K] (le : K → K → Bool)
    (keys : List K) : List (K × Nat) :=
  (sortOrd le keys.dedup).map (fun k => (k, keyCount k keys))

/-- Group key of the `by_location` summary:
`(filename, line, core_exception)`, null if any component is null. -/
def locKey (r : ERow) : Option (String × String × String) :=
  match r.filename, r.line, r.core_exception with
  | some f, some l, some c => some (f, l, c)
  | _, _, _ => none

/-- Group key of the `hourly` summary: `(hour, core_exception)`. -/
def hourKey (r : ERow) : Option (Int × String) :=
  r.core_exception.map (fun c => (r.hour, c))

/-- Group key of the `daily` summary: `(date, core_exception)`. -/
def dateKey (r : ERow) : Option (Int × String) :=
  r.core_exception.map (fun c => (r.date, c))

/-- Group key of the `by_thread` summary: `(thread, core_exception)`. -/
def threadKey (r : ERow) : Option (String × String) :=
  r.core_exception.map (fun c => (r.thread, c))

/-- Group key of `top_error_locations` and of the repeating-pattern
grouping's location part: `(filename, line)`. -/
def flKey (r : ERow) : Option (String × String) :=
  match r.filename, r.line with
  | some f, some l => some (f, l)
  | _, _ => none

/-- Group key of the repeating-pattern detection:
`(core_exception, filename, line)`. -/
def repKey (r : ERow) : Option (String × String × String) :=
  match r.core_exception, r.filename, r.line with
  | some c, some f, some l => some (c, f, l)
  | _, _, _ => none

/-! ### Summary table (`ErrorAnalyzer._create_summary`) -/

/-- One row of the combined summary dataframe, tagged by its
`summary_type`. -/
inductive GroupedRow where
  | by_location (filename line exception : String) (count : Nat)
  | hourly (time_bucket : Int) (exception : String) (count : Nat)
  | daily (time_bucket : Int) (exception : String) (count : Nat)
  | by_thread (thread exception : String) (count : Nat)
deriving DecidableEq

/-- `ErrorAnalyzer._create_summary`: the four groupings concatenated
(`pd.concat`) in the order they are appended. -/
def create_summary (edf : List ERow) : List GroupedRow :=
  ((groupSizes keyLe3 (edf.filterMap locKey)).map
      (fun kc => GroupedRow.by_location kc.1.1 kc.1.2.1 kc.1.2.2 kc.2)) ++
  ((groupSizes keyLeIS (edf.filterMap hourKey)).map
      (fun kc => GroupedRow.hourly kc.1.1 kc.1.2 kc.2)) ++
  ((groupSizes keyLeIS (edf.filterMap dateKey)).map
      (fun kc => GroupedRow.daily kc.1.1 kc.1.2 kc.2)) ++
  ((groupSizes keyLeSS (edf.filterMap threadKey)).map
      (fun kc => GroupedRow.by_thread kc.1.1 kc.1.2 kc.2))

/-- `ErrorAnalyzer.analyze`, with the object's single piece of mutable
state (`self.analysis_results`) passed explicitly: on empty input, or
when the error subset is empty, the state is left unchanged and an empty
table is returned; otherwise the error dataframe is stored and the
summary returned. -/
def analyze (st : Option (List ERow)) (logs : List LogEntry) :
    Option (List ERow) × List GroupedRow :=
  if logs.isEmpty then (st, [])
  else
    (let edf := errorSubset logs
     if edf.isEmpty then (st, [])
     else (some edf, create_summary edf))

/-! ### Pattern detection (`ErrorAnalyzer._detect_patterns`) -/

/-- A detected pattern: either a burst or a repeating fault. -/
inductive Pattern where
  | burst (start_time end_time : Int) (count : Nat) (duration_seconds : ℚ)
  | repeating (exception location : String) (count : Nat)
deriving DecidableEq

/-- `df.sort_values('timestamp')`: ascending sort by timestamp. -/
def sortByTimestamp (edf : List ERow) : List ERow :=
  sortOrd (fun a b => decide (a.timestamp ≤ b.timestamp)) edf

/-- The burst loop: `for i in range(len(df_sorted) - 10)`, window
`df_sorted.iloc[i:i+10]`, emitting a burst when the span between the
window's first and last timestamps is under 60 seconds. -/
def burstPatterns (s : List ERow) : List Pattern :=
  (List.range (s.length - 10)).filterMap (fun i =>
    let w := (s.drop i).take 10
    match w.head?, w.getLast? with
    | some a, some b =>
        if b.timestamp - a.timestamp < 60000000 then
          some (.burst a.timestamp b.timestamp 10
            (((b.timestamp - a.timestamp : Int) : ℚ) / 1000000))
        else none
    | _, _ => none)

/-- The repeating loop: group by `(core_exception, filename, line)`, keep
groups of size strictly greater than 5, emit one pattern per kept group
with `location = filename ++ ":" ++ line`. -/
def repeatingPatterns (edf : List ERow) : List Pattern :=
  (groupSizes keyLe3 (edf.filterMap repKey)).filterMap (fun kc =>
    if 5 < kc.2 then
      some (.repeating kc.1.1 (kc.1.2.1 ++ ":" ++ kc.1.2.2) kc.2)
    else none)

/-- `ErrorAnalyzer._detect_patterns`: bursts (over the time-sorted frame)
are appended first, then repeating patterns; the combined list is cut to
its first 10 entries (`patterns[:10]`). -/
def detect_patterns (edf : List ERow) : List Pattern :=
  (burstPatterns (sortByTimestamp edf) ++ repeatingPatterns edf).take 10

/-! ### Metrics (`ErrorAnalyzer.get_metrics`, `_create_timeline_metrics`) -/

/-- Maximum of an integer list (`Series.max()`), 0 on the empty list
(which `get_metrics` never sees: `analyze` only stores non-empty
frames). -/
def listMax (l : List Int) : Int := l.foldl max (l.headD 0)

/-- Minimum of an integer list (`Series.min()`). -/
def listMin (l : List Int) : Int := l.foldl min (l.headD 0)

/-- First-appearance distinct values (the index order `value_counts`
uses for tied counts). -/
def firstOccUnique {K : Type} [DecidableEq K] (l : List K) : List K :=
  l.foldl (fun acc k => if k ∈ acc then acc else acc ++ [k]) []

/-- `Series.value_counts().head(10).to_dict()` over the non-null values
of a column: counts per distinct value, sorted descending by count
(stable), first 10. -/
def valueCountsTop10 (vals : List String) : List (String × Nat) :=
  (sortOrd (fun a b => decide (b.2 ≤ a.2))
    ((firstOccUnique vals).map (fun k => (k, vals.count k)))).take 10

/-- `groupby(['filename','line']).size().sort_values(ascending=False).head(10)`. -/
def topErrorLocations (edf : List ERow) : List ((String × String) × Nat) :=
  (sortOrd (fun a b => decide (b.2 ≤ a.2))
    (groupSizes keyLeSS (edf.filterMap flKey))).take 10

/-- The result of `ErrorAnalyzer._create_timeline_metrics` (hour buckets
kept as hour-floor timestamps rather than rendered strings). -/
structure Timeline where
  peak_hour : Int
  peak_hour_count : Nat
  quiet_hour : Int
  quiet_hour_count : Nat
  avg_errors_per_hour : ℚ
deriving DecidableEq

/-- `Series.idxmax` with its count: the first entry attaining the maximal
count. -/
def argmaxFirst (l : List (Int × Nat)) : Int × Nat :=
  l.foldl (fun best kc => if best.2 < kc.2 then kc else best) (l.headD (0, 0))

/-- `Series.idxmin` with its count: the first entry attaining the minimal
count. -/
def argminFirst (l : List (Int × Nat)) : Int × Nat :=
  l.foldl (fun best kc => if kc.2 < best.2 then kc else best) (l.headD (0, 0))

/-- `ErrorAnalyzer._create_timeline_metrics`. -/
def create_timeline_metrics (edf : List ERow) : Timeline :=
  let hourly_counts := groupSizes intLe (edf.map (fun r => r.hour))
  let pk := argmaxFirst hourly_counts
  let qt := argminFirst hourly_counts
  { peak_hour := pk.1
    peak_hour_count := pk.2
    quiet_hour := qt.1
    quiet_hour_count := qt.2
    avg_errors_per_hour :=
      ((hourly_counts.map (fun kc => (kc.2 : ℚ))).sum) / hourly_counts.length }

/-- The metric bundle built by `ErrorAnalyzer.get_metrics`. -/
structure Metrics where
  total_errors : Nat
  unique_error_types : Nat
  affected_files : Nat
  error_rate_per_hour : ℚ
  top_errors : List (String × Nat)
  top_error_locations : List ((String × String) × Nat)
  error_timeline : Timeline
  error_patterns : List Pattern
deriving DecidableEq

/-- `ErrorAnalyzer.get_metrics`.  With no stored analysis it returns the
empty dict (`.ok none`).  Otherwise it computes the bundle; the
`error_rate_per_hour` entry divides `len(df)` by
`(max - min).total_seconds() / 3600`, and when that elapsed time is zero
(fewer than two distinct timestamps) the division raises
`ZeroDivisionError`, which propagates out of `get_metrics`. -/
def get_metrics (st : Option (List ERow)) : Except String (Option Metrics) :=
  match st with
  | none => .ok none
  | some edf =>
      let ts := edf.map (fun r => r.timestamp)
      let elapsed : Int := listMax ts - listMin ts
      if elapsed = 0 then .error "ZeroDivisionError"
      else
        .ok (some
          { total_errors := edf.length
            unique_error_types := (edf.filterMap (fun r => r.core_exception)).dedup.length
            affected_files := (edf.filterMap (fun r => r.filename)).dedup.length
            error_rate_per_hour :=
              (edf.length : ℚ) / (((elapsed : ℚ) / 1000000) / 3600)
            top_errors := valueCountsTop10 (edf.filterMap (fun r => r.core_exception))
            top_error_locations := topErrorLocations edf
            error_timeline := create_timeline_metrics edf
            error_patterns := detect_patterns edf })

/-! ### Decidability helper and concrete fixtures -/

/-- Decidable equality for `Except` results, so metric bundles can be
compared computationally. -/
instance instDecidableEqExcept {ε α : Type} [DecidableEq ε] [DecidableEq α] :
    DecidableEq (Except ε α)
  | .error a, .error b =>
      if h : a = b then .isTrue (by rw [h])
      else .isFalse (fun hc => h (by injection hc))
  | .error _, .ok _ => .isFalse (fun hc => Except.noConfusion hc)
  | .ok _, .error _ => .isFalse (fun hc => Except.noConfusion hc)
  | .ok a, .ok b =>
      if h : a = b then .isTrue (by rw [h])
      else .isFalse (fun hc => h (by injection hc))

/-- A well-formed error record fixture with the given timestamp
(microseconds), exception type and `file:line` descriptor. -/
def sampleError (t : Int) (exc fl : String) : LogEntry :=
  { timestamp := t
    level := "심각"
    thread := "T"
    logger := "L"
    message := "m"
    exception_type := some exc
    exception_message := some ""
    location := some "loc"
    file_line := some fl
    raw_content := some "" }

/-- A single error record at one instant (elapsed time zero). -/
def c1LogsOne : List LogEntry := [sampleError 0 "AException" "A.java:1"]

/-- Twenty error records whose timestamps span exactly two hours. -/
def c1LogsTwenty : List LogEntry :=
  (List.range 20).map (fun i =>
    sampleError (if i = 19 then 7200000000 else (i : Int) * 1000000)
      "AException" "A.java:1")

/-- Ten error records spaced 5 seconds apart (45 s total span); their
exception types carry no `...Exception` core, so no repeating pattern can
interfere with burst detection. -/
def c2LogsTen : List LogEntry :=
  (List.range 10).map (fun i => sampleError ((i : Int) * 5000000) "X" "F:1")

/-- An error-grammar match whose month token `Foo` is not in `month_map`. -/
def c4BadMonth : ErrorMatch :=
  { timestamp := "10-Foo-2025 08:26:46.310"
    thread := "t"
    logger := "lg"
    message := "m"
    exception := "X"
    exc_message := none
    location := "l"
    file := "f:1"
    raw := "r" }

/-- An error-grammar match whose numeric day field 99 is out of range, so
its timestamp genuinely fails to parse. -/
def c4BadDay : ErrorMatch :=
  { timestamp := "99-Jun-2025 08:26:46.310"
    thread := "t"
    logger := "lg"
    message := "m"
    exception := "X"
    exc_message := none
    location := "l"
    file := "f:1"
    raw := "r" }

/-- A general-grammar ERROR-level match. -/
def c5GenA : GeneralMatch :=
  { timestamp := "10-Jun-2025 08:26:46.310"
    level := "심각"
    thread := "t1"
    logger := "lg"
    message := "m1"
    raw := "r1" }

/-- A second general-grammar ERROR-level match with the same timestamp. -/
def c5GenB : GeneralMatch :=
  { timestamp := "10-Jun-2025 08:26:46.310"
    level := "심각"
    thread := "t2"
    logger := "lg"
    message := "m2"
    raw := "r2" }

/-- Six error records sharing `(NullPointerException, A.java, 10)`. -/
def c8LogsSix : List LogEntry :=
  (List.range 6).map (fun i =>
    sampleError ((i : Int) * 10000000000) "NullPointerException" "A.java:10")

/-- Five error records sharing `(NullPointerException, A.java, 10)`. -/
def c8LogsFive : List LogEntry :=
  (List.range 5).map (fun i =>
    sampleError ((i : Int) * 10000000000) "NullPointerException" "A.java:10")

/-- Twenty-one error records one second apart sharing one
`(exception, file, line)` key: the burst loop qualifies 11 windows and the
repeating grouping one group, so the combined pattern list overflows the
cap of 10. -/
def c9LogsTwentyOne : List LogEntry :=
  (List.range 21).map (fun i =>
    sampleError ((i : Int) * 1000000) "AException" "A.java:1")

/-- An error record whose exception type `Timeout` contains no substring
matching `[A-Za-z0-9]+Exception`. -/
def c10BadCore : LogEntry := sampleError 5000000 "Timeout" "B.java:2"

/-! ## Theorems for the claims -/

/-- C1 (counterexample): after analyzing a single error record the error
subset has one distinct timestamp, and `get_metrics` raises
`ZeroDivisionError` instead of reporting `error_rate_per_hour == 1` — the
guard the claim describes does not exist in the code. -/
theorem c1_counterexample :
    get_metrics (analyze none c1LogsOne).1 = .error "ZeroDivisionError" := by
  decide

/-- C1 (amended): for a stored non-empty error subset,
`error_rate_per_hour` equals `total_errors` divided by the elapsed hours
between the maximum and minimum timestamps whenever that elapsed time is
non-zero; when the subset has fewer than 2 distinct timestamps (elapsed
time zero) `get_metrics` raises `ZeroDivisionError` — there is no guard
and no single-instant fallback. -/
theorem c1_rate_guard :
    ∀ edf : List ERow,
      (listMax (edf.map (fun r => r.timestamp)) =
          listMin (edf.map (fun r => r.timestamp)) →
        get_metrics (some edf) = .error "ZeroDivisionError") ∧
      (listMax (edf.map (fun r => r.timestamp)) ≠
          listMin (edf.map (fun r => r.timestamp)) →
        ∃ m : Metrics, get_metrics (some edf) = .ok (some m) ∧
          m.total_errors = edf.length ∧
          m.error_rate_per_hour = (edf.length : ℚ) /
            ((((listMax (edf.map (fun r => r.timestamp)) -
                listMin (edf.map (fun r => r.timestamp)) : Int) : ℚ) /
              1000000) / 3600)) := by
  intro edf
  constructor
  · intro h
    simp [get_metrics, h]
  · intro h
    have hne : (listMax (edf.map (fun r => r.timestamp)) -
        listMin (edf.map (fun r => r.timestamp)) : Int) ≠ 0 :=
      sub_ne_zero_of_ne h
    simp only [get_metrics]
    rw [if_neg hne]
    exact ⟨_, rfl, rfl, rfl⟩

/-- C1 (witness): twenty error records spanning exactly two hours give a
bundle with `total_errors = 20` and `error_rate_per_hour = 10`. -/
theorem c1_rate_guard_witness :
    listMax ((errorSubset c1LogsTwenty).map (fun r => r.timestamp)) ≠
      listMin ((errorSubset c1LogsTwenty).map (fun r => r.timestamp)) ∧
    ∃ m : Metrics,
      get_metrics (some (errorSubset c1LogsTwenty)) = .ok (some m) ∧
        m.total_errors = 20 ∧ m.error_rate_per_hour = 10 := by
  obtain ⟨m, h1, h2, h3⟩ :=
    (c1_rate_guard (errorSubset c1LogsTwenty)).2 (by decide)
  have hmax : listMax ((errorSubset c1LogsTwenty).map (fun r => r.timestamp)) =
      7200000000 := by decide
  have hmin : listMin ((errorSubset c1LogsTwenty).map (fun r => r.timestamp)) =
      0 := by decide
  have hlen : (errorSubset c1LogsTwenty).length = 20 := by decide
  refine ⟨by decide, m, h1, h2.trans hlen, h3.trans ?_⟩
  rw [hmax, hmin, hlen]
  norm_num

/-- C2 (code bug, evaluation): ten error records spaced 5 seconds apart
(45 s total span, under the 60 s threshold) produce no pattern at all:
the window loop `for i in range(len(df_sorted) - 10)` examines zero
windows when the sorted frame has exactly 10 rows, so the burst the claim
requires is never emitted. -/
theorem c2_burst_eval :
    (errorSubset c2LogsTen).length = 10 ∧
    listMax ((errorSubset c2LogsTen).map (fun r => r.timestamp)) -
      listMin ((errorSubset c2LogsTen).map (fun r => r.timestamp)) =
        45000000 ∧
    detect_patterns (errorSubset c2LogsTen) = [] := by
  decide

/-- C7: analysis is a pure recomputation: running `analyze` a second time
on the same record collection returns the same `GroupedCount` table, and
`get_metrics` queried after each of the two calls returns the same
bundle, from any prior analyzer state. -/
theorem c7_idempotent :
    ∀ (st : Option (List ERow)) (logs : List LogEntry),
      (analyze st logs).2 = (analyze (analyze st logs).1 logs).2 ∧
      get_metrics (analyze st logs).1 =
        get_metrics (analyze (analyze st logs).1 logs).1 := by
  intro st logs
  unfold analyze
  by_cases h1 : logs.isEmpty
  · simp [h1]
  · by_cases h2 : (errorSubset logs).isEmpty
    · simp [h1, h2]
    · simp [h1, h2]

/-- C3 (counterexample): reading a single (non-zip) file is strict: the
invalid byte `0xFF` makes `fetch_logs` raise `UnicodeDecodeError` instead
of substituting the byte, so decoding does not "never fail". -/
theorem c3_counterexample :
    fetch_logs (fun _ => []) utf8Model (.plainFile [255]) none none {} =
      .error "UnicodeDecodeError" := by
  decide

/-- C3 (amended): decoding is error-suppressed only on the zip path: for
every codec and every zip archive, `fetch_logs` never fails (members are
decoded with `errors="ignore"`, which drops invalid bytes rather than
substituting them); but a single non-zip file is read with the strict
decoder, and an invalid byte sequence makes `fetch_logs` raise
`UnicodeDecodeError`. -/
theorem c3_decode_amended :
    (∀ (extract : List Nat → List LogEntry) (codec : Codec)
        (members : List (List Nat × List Nat)) (s e : Option Int) (f : Filters),
        ∃ l, fetch_logs extract codec (.zipFile members) s e f = .ok l) ∧
    (∀ (extract : List Nat → List LogEntry) (codec : Codec) (bytes : List Nat)
        (s e : Option Int) (f : Filters),
        decodeStrict codec bytes = none →
          fetch_logs extract codec (.plainFile bytes) s e f =
            .error "UnicodeDecodeError") := by
  constructor
  · intro extract codec members s e f
    exact ⟨_, rfl⟩
  · intro extract codec bytes s e f h
    simp [fetch_logs, h]

/-- C3 (witness): the byte string `[0xFF]` is rejected by the strict
UTF-8 decoder, and fetching it as a plain file fails. -/
theorem c3_decode_amended_witness :
    decodeStrict utf8Model [255] = none ∧
    fetch_logs (fun _ => []) utf8Model (.plainFile [255]) none none {} =
      .error "UnicodeDecodeError" :=
  ⟨by decide,
   c3_decode_amended.2 (fun _ => []) utf8Model [255] none none {} (by decide)⟩

/-- C4 (counterexample): a matched record whose timestamp has the
malformed month token `Foo` is not dropped: `month_map.get` silently
defaults the month to `'01'`, so the record is kept, with the timestamp
of the corresponding January instant. -/
theorem c4_counterexample :
    extract_entries_from_content [c4BadMonth] [] [] =
      [errorEntryOf c4BadMonth 63872094406310000] ∧
    parse_timestamp "10-Jan-2025 08:26:46.310" = some 63872094406310000 := by
  decide

/-- C4 (amended): a matched record whose timestamp genuinely fails to
parse (for example an out-of-range numeric day or hour — but not a
malformed month token, which is silently mapped to January) is dropped
while parsing continues unchanged for every other match, in both the
error-grammar and the general-grammar pass; so no such record enters the
output and a single bad timestamp never aborts the parse. -/
theorem c4_drop_amended :
    (∀ (acc : List LogEntry) (ems1 ems2 : List ErrorMatch) (m : ErrorMatch),
        parse_timestamp m.timestamp = none →
          errorPass acc (ems1 ++ m :: ems2) = errorPass acc (ems1 ++ ems2)) ∧
    (∀ (acc : List LogEntry) (gms1 gms2 : List GeneralMatch) (g : GeneralMatch),
        parse_timestamp g.timestamp = none →
          generalPass acc (gms1 ++ g :: gms2) = generalPass acc (gms1 ++ gms2)) := by
  constructor
  · intro acc ems1 ems2 m h
    simp [errorPass, List.foldl_append, errorStep, h]
  · intro acc gms1 gms2 g h
    simp [generalPass, List.foldl_append, generalStep, h]

/-- C4 (witness): the out-of-range day 99 fails to parse and its match
contributes nothing, leaving the (empty) remainder intact. -/
theorem c4_drop_amended_witness :
    parse_timestamp c4BadDay.timestamp = none ∧
    errorPass [] [c4BadDay] = [] :=
  ⟨by decide, c4_drop_amended.1 [] [] [] c4BadDay (by decide)⟩

/-- C5 (counterexample): with no error-grammar record at all, two
general-grammar ERROR-level matches sharing one timestamp do not both
survive: the first kept general entry makes the duplicate test discard
the second, so discarding is not conditioned on an error-grammar record
existing. -/
theorem c5_counterexample :
    extract_entries_from_content [] [] [c5GenA, c5GenB] =
      [generalEntryOf c5GenA 63885140806310000] := by
  decide

/-- C5 (amended): a general-grammar match is kept exactly when its
timestamp parses and it is not the case that its level is ERROR (`심각`)
and some already-collected entry — an error-grammar record or an
earlier-kept general-grammar record — has the same timestamp and the same
level; the passes fold left over the match lists, so later matches are
tested against earlier kept entries of both kinds. -/
theorem c5_dedup_amended :
    (∀ (emsA emsB : List ErrorMatch) (gms : List GeneralMatch),
        extract_entries_from_content emsA emsB gms =
          generalPass (errorPass (errorPass [] emsA) emsB) gms) ∧
    (∀ (acc : List LogEntry) (g : GeneralMatch) (gs : List GeneralMatch),
        generalPass acc (g :: gs) = generalPass (generalStep acc g) gs) ∧
    (∀ (acc : List LogEntry) (g : GeneralMatch),
        (generalStep acc g).length = acc.length + 1 ↔
          ∃ t, parse_timestamp g.timestamp = some t ∧
            ¬(g.level = "심각" ∧
              ∃ e ∈ acc, e.timestamp = t ∧ e.level = g.level)) := by
  refine ⟨fun _ _ _ => rfl, fun _ _ _ => rfl, ?_⟩
  intro acc g
  unfold generalStep
  cases hp : parse_timestamp g.timestamp with
  | none => simp
  | some t =>
      show (if isDupGeneral acc g.level t then acc
            else acc ++ [generalEntryOf g t]).length = acc.length + 1 ↔ _
      by_cases hd : isDupGeneral acc g.level t
      · rw [if_pos hd]
        simp only [isDupGeneral, Bool.and_eq_true, decide_eq_true_eq,
          List.any_eq_true] at hd
        simp only [Option.some.injEq]
        constructor
        · intro hlen
          omega
        · rintro ⟨t2, ht2, hno⟩
          subst ht2
          exact absurd ⟨hd.1, hd.2⟩ hno
      · rw [if_neg hd]
        simp only [isDupGeneral, Bool.and_eq_true, decide_eq_true_eq,
          List.any_eq_true] at hd
        simp only [List.length_append, List.length_singleton,
          Option.some.injEq, true_iff]
        exact ⟨t, rfl, fun hc => hd ⟨hc.1, hc.2⟩⟩

/-- Helper: the five sequentially applied filter stages equal one filter
by the conjunction of the supplied predicates. -/
theorem applyFetchFilters_eq_filter (entries : List LogEntry)
    (s e : Option Int) (f : Filters) :
    applyFetchFilters entries s e f = entries.filter (fun e2 => fetchPred s e f e2) := by
  obtain ⟨lv, xt, tp⟩ := f
  rcases s with _ | st <;> rcases e with _ | et <;> rcases lv with _ | lv <;>
    rcases xt with _ | xt <;> rcases tp with _ | tp <;>
      simp [applyFetchFilters, fetchPred, List.filter_filter,
        Bool.and_comm, Bool.and_left_comm, Bool.and_assoc]

/-- C6: `fetch_logs` applies the time lower bound, time upper bound,
level equality, exception-type equality and thread-pattern search in
sequence; the result equals a single filter by the conjunction of all
supplied predicates (an absent filter is a no-op `true`), it is a sublist
of the unfiltered entries (relative order preserved), and on any source
the filtered fetch is the unfiltered fetch composed with that filter. -/
theorem c6_filters :
    ∀ (entries : List LogEntry) (s e : Option Int) (f : Filters),
      applyFetchFilters entries s e f = entries.filter (fun e2 => fetchPred s e f e2) ∧
      (applyFetchFilters entries s e f).Sublist entries ∧
      ∀ (extract : List Nat → List LogEntry) (codec : Codec) (src : Source),
        fetch_logs extract codec src s e f =
          (fetch_logs extract codec src none none {}).map
            (fun l => l.filter (fun e2 => fetchPred s e f e2)) := by
  intro entries s e f
  refine ⟨applyFetchFilters_eq_filter entries s e f, ?_, ?_⟩
  · rw [applyFetchFilters_eq_filter]
    exact List.filter_sublist entries
  · intro extract codec src
    cases src with
    | zipFile members =>
        exact congrArg Except.ok (applyFetchFilters_eq_filter _ s e f)
    | plainFile bytes =>
        cases h : decodeStrict codec bytes with
        | none => simp [fetch_logs, h, Except.map]
        | some content =>
            simp only [fetch_logs, h]
            exact congrArg Except.ok (applyFetchFilters_eq_filter _ s e f)

/-- Helper: inserting into a list permutes consing. -/
theorem insertOrd_perm {α : Type} (le : α → α → Bool) (a : α) (l : List α) :
    (insertOrd le a l).Perm (a :: l) := by
  induction l with
  | nil => exact List.Perm.refl _
  | cons b bs ih =>
      unfold insertOrd
      by_cases h : le b a
      · rw [if_pos h]
        exact (ih.cons b).trans (List.Perm.swap a b bs)
      · rw [if_neg h]

/-- Helper: the insertion-sort fold permutes the accumulator followed by
the input. -/
theorem sortOrd_perm_aux {α : Type} (le : α → α → Bool) :
    ∀ (l acc : List α),
      (l.foldl (fun acc2 x => insertOrd le x acc2) acc).Perm (acc ++ l) := by
  intro l
  induction l with
  | nil => intro acc; simp
  | cons x xs ih =>
      intro acc
      have h1 := ih (insertOrd le x acc)
      have h2 : (insertOrd le x acc ++ xs).Perm (acc ++ x :: xs) :=
        (((insertOrd_perm le x acc).append_right xs)).trans List.perm_middle.symm
      exact h1.trans h2

/-- Helper: `sortOrd` permutes its input. -/
theorem sortOrd_perm {α : Type} (le : α → α → Bool) (l : List α) :
    (sortOrd le l).Perm l :=
  sortOrd_perm_aux le l []

/-- Helper: membership is preserved by `sortOrd`. -/
theorem mem_sortOrd {α : Type} {le : α → α → Bool} {a : α} {l : List α} :
    a ∈ sortOrd le l ↔ a ∈ l :=
  (sortOrd_perm le l).mem_iff

/-- Helper: a key occurs in a key list exactly when its `keyCount` is
positive. -/
theorem keyCount_pos {K : Type} [DecidableEq K] {k : K} {keys : List K} :
    0 < keyCount k keys ↔ k ∈ keys := by
  unfold keyCount
  exact List.count_pos_iff

/-- Helper: membership in a `groupSizes` table. -/
theorem mem_groupSizes {K : Type} [DecidableEq K] {le : K → K → Bool}
    {keys : List K} {kc : K × Nat} :
    kc ∈ groupSizes le keys ↔ kc.1 ∈ keys ∧ kc.2 = keyCount kc.1 keys := by
  unfold groupSizes
  rw [List.mem_map]
  constructor
  · rintro ⟨k, hk, rfl⟩
    exact ⟨List.mem_dedup.mp (mem_sortOrd.mp hk), rfl⟩
  · rintro ⟨hk, hc⟩
    refine ⟨kc.1, mem_sortOrd.mpr (List.mem_dedup.mpr hk), ?_⟩
    rw [← hc]

/-- C8: a group under `(core_exception, filename, line)` with occurrence
count `n` yields the pattern `Repeating{exception, "filename:line", n}` in
the output exactly when `n > 5`; every emitted repeating pattern arises
from such a group, carrying that group's size; and concretely 6 records
sharing a key yield one `Repeating` of count 6 while 5 such records yield
none. -/
theorem c8_repeating :
    (∀ (edf : List ERow) (exc fn ln : String),
        Pattern.repeating exc (fn ++ ":" ++ ln)
            (keyCount (exc, fn, ln) (edf.filterMap repKey)) ∈
          repeatingPatterns edf ↔
        5 < keyCount (exc, fn, ln) (edf.filterMap repKey)) ∧
    (∀ (edf : List ERow), ∀ p ∈ repeatingPatterns edf,
        ∃ k : String × String × String,
          p = Pattern.repeating k.1 (k.2.1 ++ ":" ++ k.2.2)
              (keyCount k (edf.filterMap repKey)) ∧
          5 < keyCount k (edf.filterMap repKey)) ∧
    repeatingPatterns (errorSubset c8LogsSix) =
      [Pattern.repeating "NullPointerException" "A.java:10" 6] ∧
    repeatingPatterns (errorSubset c8LogsFive) = [] := by
  refine ⟨?_, ?_, by decide, by decide⟩
  · intro edf exc fn ln
    constructor
    · intro hmem
      obtain ⟨kc, hkc, hf⟩ := List.mem_filterMap.mp hmem
      by_cases h5 : 5 < kc.2
      · rw [if_pos h5] at hf
        obtain ⟨h1, h2, h3⟩ := Pattern.repeating.inj (Option.some.inj hf)
        omega
      · rw [if_neg h5] at hf
        exact absurd hf (Option.noConfusion)
    · intro h5
      apply List.mem_filterMap.mpr
      refine ⟨((exc, fn, ln), keyCount (exc, fn, ln) (edf.filterMap repKey)),
        ?_, by rw [if_pos h5]⟩
      apply mem_groupSizes.mpr
      exact ⟨keyCount_pos.mp (Nat.zero_lt_of_lt h5), rfl⟩
  · intro edf p hmem
    obtain ⟨kc, hkc, hf⟩ := List.mem_filterMap.mp hmem
    by_cases h5 : 5 < kc.2
    · rw [if_pos h5] at hf
      obtain ⟨hg, hcnt⟩ := mem_groupSizes.mp hkc
      refine ⟨kc.1, ?_, ?_⟩
      · rw [← hcnt]
        exact (Option.some.inj hf).symm
      · omega
    · rw [if_neg h5] at hf
      exact absurd hf (Option.noConfusion)

/-- C8 (witness): in the six-record fixture the key
`(NullPointerException, A.java, 10)` occurs 6 > 5 times, and the
corresponding `Repeating` pattern of count 6 is emitted. -/
theorem c8_repeating_witness :
    5 < keyCount ("NullPointerException", "A.java", "10")
        ((errorSubset c8LogsSix).filterMap repKey) ∧
    Pattern.repeating "NullPointerException" "A.java:10"
        (keyCount ("NullPointerException", "A.java", "10")
          ((errorSubset c8LogsSix).filterMap repKey)) ∈
      repeatingPatterns (errorSubset c8LogsSix) :=
  ⟨by decide,
   (c8_repeating.1 (errorSubset c8LogsSix) "NullPointerException" "A.java"
      "10").mpr (by decide)⟩

/-- C9: the pattern output is the burst list followed by the repeating
list, truncated to the first 10 entries as one combined cap; concretely,
21 one-second-spaced records sharing one fault key yield 11 bursts and 1
repeating pattern, and the output is 10 entries, all bursts — the
repeating pattern is crowded out, so the cap is over the concatenation,
not per kind. -/
theorem c9_cap :
    (∀ edf : List ERow,
        detect_patterns edf =
          (burstPatterns (sortByTimestamp edf) ++ repeatingPatterns edf).take 10 ∧
        (detect_patterns edf).length ≤ 10) ∧
    (burstPatterns (sortByTimestamp (errorSubset c9LogsTwentyOne))).length = 11 ∧
    (repeatingPatterns (errorSubset c9LogsTwentyOne)).length = 1 ∧
    (detect_patterns (errorSubset c9LogsTwentyOne)).length = 10 ∧
    (detect_patterns (errorSubset c9LogsTwentyOne)).all
      (fun p => match p with
        | .burst _ _ _ _ => true
        | .repeating _ _ _ => false) = true := by
  refine ⟨fun edf => ⟨rfl, List.length_take_le 10 _⟩,
    by decide, by decide, by decide, by decide⟩

/-- Helper: a row whose derived core exception is null contributes no
`by_location` key. -/
theorem locKey_none {r : ERow} (h : r.core_exception = none) :
    locKey r = none := by
  rcases hf : r.filename with _ | f <;> rcases hl : r.line with _ | l <;>
    simp [locKey, hf, hl, h]

/-- Helper: splitting the error subset around one error record. -/
theorem errorSubset_append (logs1 logs2 : List LogEntry) (e : LogEntry)
    (h : e.exception_type.isSome = true) :
    errorSubset (logs1 ++ e :: logs2) =
      errorSubset logs1 ++ mkERow e :: errorSubset logs2 := by
  simp [errorSubset, List.filter_append, h]

/-- C10: an error record whose exception type has no
`[A-Za-z0-9]+Exception` substring is still counted in `total_errors`
(the error-subset length grows by one), but the summary table — the
`by_location`, `hourly`, `daily` and `by_thread` groupings — and the
`top_errors` counts are exactly those of the collection without it: its
null core exception is dropped from every grouping key. -/
theorem c10_null_core :
    ∀ (logs1 logs2 : List LogEntry) (e : LogEntry) (s : String),
      e.exception_type = some s → coreExceptionOf s = none →
        create_summary (errorSubset (logs1 ++ e :: logs2)) =
            create_summary (errorSubset (logs1 ++ logs2)) ∧
        (errorSubset (logs1 ++ e :: logs2)).length =
            (errorSubset (logs1 ++ logs2)).length + 1 ∧
        valueCountsTop10 ((errorSubset (logs1 ++ e :: logs2)).filterMap
            (fun r => r.core_exception)) =
          valueCountsTop10 ((errorSubset (logs1 ++ logs2)).filterMap
            (fun r => r.core_exception)) := by
  intro logs1 logs2 e s hs hc
  have hcore : (mkERow e).core_exception = none := by
    simp [mkERow, hs, hc]
  have hsub := errorSubset_append logs1 logs2 e (by rw [hs]; rfl)
  have hsub2 : errorSubset (logs1 ++ logs2) =
      errorSubset logs1 ++ errorSubset logs2 := by
    simp [errorSubset, List.filter_append]
  rw [hsub, hsub2]
  refine ⟨?_, by simp; omega, ?_⟩
  · simp [create_summary, List.filterMap_append, List.filterMap_cons,
      locKey_none hcore, hourKey, dateKey, threadKey, hcore]
  · simp [List.filterMap_append, List.filterMap_cons, hcore]

/-- C10 (witness): the record with exception type `Timeout` (no
`...Exception` core) leaves the summary and the top-errors counts of a
one-good-record collection unchanged while raising the error count from
1 to 2. -/
theorem c10_null_core_witness :
    coreExceptionOf "Timeout" = none ∧
    create_summary (errorSubset
        ([sampleError 0 "AException" "A.java:1"] ++ c10BadCore :: [])) =
      create_summary (errorSubset ([sampleError 0 "AException" "A.java:1"] ++ [])) ∧
    (errorSubset ([sampleError 0 "AException" "A.java:1"] ++ c10BadCore :: [])).length =
      (errorSubset ([sampleError 0 "AException" "A.java:1"] ++ [])).length + 1 := by
  have h := c10_null_core [sampleError 0 "AException" "A.java:1"] [] c10BadCore
    "Timeout" rfl (by decide)
  exact ⟨by decide, h.1, h.2.1⟩

end LogAn
